import Mathlib

/-!
# Ecotone network upgrade transactions

A shallow embedding of `op-node/rollup/derive/ecotone_upgrade_transactions.go`.

The Go file builds six deposit transactions in a fixed order, serialises each
with `MarshalBinary`, and returns the list of encodings or the first encoding
error.  Everything the file imports from other packages (hashing, contract
address derivation, transaction serialisation, predeploy addresses, contract
bytecode) is collected in the structure `Env`, so that every statement below is
quantified over all possible behaviours of those collaborators.

Statements about "the descriptors the builder builds" are stated on the builder
itself: they assert six descriptors such that, for every encoder put in place of
`MarshalBinary`, the builder returns exactly the encodings of these six, in this
order, up to the first failure (`descriptor_table_unique` shows that such a list
is determined by the builder).  The package variables the builder reads are also
modelled as an explicit state (`PackageVars`).
-/

namespace Derive

/-- One octet. -/
abbrev Byte := Fin 256

/-- Go `[]byte` as a list of octets. -/
abbrev Bytes := List Byte

/-- Go `error` values, identified by their message. -/
abbrev Error := String

/-- The type `common.Address`: an array of exactly 20 bytes. -/
structure Address where
  bytes : Bytes
  len : bytes.length = 20
deriving DecidableEq

/-- The type `common.Hash`: an array of exactly 32 bytes. -/
structure Hash where
  bytes : Bytes
  len : bytes.length = 32
deriving DecidableEq

/-! ## go-ethereum `common` helpers used to write the constants -/

/-- Go's conversion `[]byte(s)`: the UTF-8 encoding of the string.  Go indexes,
slices and measures a string by these bytes. -/
def stringBytes (s : String) : Bytes :=
  s.toList.flatMap (fun c => (String.utf8EncodeChar c).map (fun b => b.val))

/-- Value of one hexadecimal digit, as `encoding/hex` reads it from a byte. -/
def fromHexChar (c : Byte) : Option Nat :=
  if '0'.toNat ≤ c.val ∧ c.val ≤ '9'.toNat then some (c.val - '0'.toNat)
  else if 'a'.toNat ≤ c.val ∧ c.val ≤ 'f'.toNat then some (c.val - 'a'.toNat + 10)
  else if 'A'.toNat ≤ c.val ∧ c.val ≤ 'F'.toNat then some (c.val - 'A'.toNat + 10)
  else none

/-- The function `common.Hex2Bytes` on the bytes of its argument: pairs of hex
digits become bytes; decoding stops at the first pair that is not two hex
digits and the bytes decoded so far are kept (the decoding error is dropped). -/
def Hex2Bytes : Bytes → Bytes
  | hi :: lo :: rest =>
    match fromHexChar hi, fromHexChar lo with
    | some h, some l => Fin.ofNat (16 * h + l) :: Hex2Bytes rest
    | _, _ => []
  | _ => []

/-- The test `has0xPrefix` of go-ethereum: at least two bytes, the first `0`,
the second `x` or `X`. -/
def has0xLead : Bytes → Bool
  | c0 :: c1 :: _ =>
    decide (c0.val = '0'.toNat) && (decide (c1.val = 'x'.toNat) || decide (c1.val = 'X'.toNat))
  | _ => false

/-- The function `common.FromHex`: drop an optional `0x`, left-pad an input
with an odd number of bytes with one `0` digit, then decode. -/
def FromHex (s : String) : Bytes :=
  let b := stringBytes s
  let b := if has0xLead b then b.drop 2 else b
  let b := if b.length % 2 = 1 then Fin.ofNat '0'.toNat :: b else b
  Hex2Bytes b

/-- The function `common.BytesToAddress`: inputs longer than 20 bytes are
cropped from the left, shorter ones are right-aligned in a zeroed array. -/
def BytesToAddress (b : Bytes) : Address :=
  let c := if b.length > 20 then b.drop (b.length - 20) else b
  { bytes := List.replicate (20 - c.length) 0 ++ c
    len := by
      have h : c.length ≤ 20 := by
        show (if b.length > 20 then b.drop (b.length - 20) else b).length ≤ 20
        split
        · rw [List.length_drop]; omega
        · omega
      rw [List.length_append, List.length_replicate]
      omega }

/-- The function `common.HexToAddress`. -/
def HexToAddress (s : String) : Address :=
  BytesToAddress (FromHex s)

/-! ## Data model -/

/-- The type `UpgradeDepositSource`: an upgrade step identified by its intent. -/
structure UpgradeDepositSource where
  Intent : String
deriving DecidableEq

/-- The fields of `types.DepositTx` that the builder sets.  `To = none` is Go's
`nil` recipient (contract creation); `Mint` and `Value` are `*big.Int`, so
`none` is a nil pointer; `Gas` is a `uint64` (all values used here are far
below `2^64`). -/
structure DepositTx where
  SourceHash : Hash
  From : Address
  To : Option Address
  Mint : Option Int
  Value : Option Int
  Gas : Nat
  Data : Bytes
  /-- Modelled from the spec: the declaration of `types.DepositTx` is not among
  the sources.  The spec's data model gives every descriptor a boolean
  `isSystemTransaction`; a Go struct literal that does not name a field leaves
  it at its zero value, which for a boolean is `false`, so the field defaults
  to `false` here. -/
  IsSystemTransaction : Bool := false
deriving DecidableEq

/-- Everything the file takes from other packages. -/
structure Env where
  /-- The function `crypto.Keccak256`, a 32-byte digest. -/
  Keccak256 : Bytes → Hash
  /-- The function `crypto.CreateAddress(sender, nonce)`. -/
  CreateAddress : Address → Nat → Address
  /-- The method `UpgradeDepositSource.SourceHash`. -/
  SourceHash : UpgradeDepositSource → Hash
  /-- The call `types.NewTx(tx).MarshalBinary()`: the encoding or an error. -/
  MarshalBinary : DepositTx → Except Error Bytes
  /-- The address `predeploys.L1BlockAddr`. -/
  L1BlockAddr : Address
  /-- The address `predeploys.GasPriceOracleAddr`. -/
  GasPriceOracleAddr : Address
  /-- The package constant `L1InfoDepositerAddress`. -/
  L1InfoDepositerAddress : Address
  /-- The hex string `bindings.L1BlockMetaData.Bin`. -/
  L1BlockBin : String
  /-- The hex string `bindings.GasPriceOracleMetaData.Bin`. -/
  GasPriceOracleBin : String

/-! ## Package-level constants (source lines 18-43) -/

def UpgradeToFuncSignature : String := "upgradeTo(address)"

def L1BlockDeployerAddress : Address :=
  HexToAddress "0x4210000000000000000000000000000000000000"

def GasPriceOracleDeployerAddress : Address :=
  HexToAddress "0x4210000000000000000000000000000000000001"

def newL1BlockAddress (env : Env) : Address :=
  env.CreateAddress L1BlockDeployerAddress 0

def newGasPriceOracleAddress (env : Env) : Address :=
  env.CreateAddress GasPriceOracleDeployerAddress 0

def deployL1BlockSource : UpgradeDepositSource :=
  { Intent := "Ecotone: L1 Block Deployment" }

def deployGasPriceOracleSource : UpgradeDepositSource :=
  { Intent := "Ecotone: Gas Price Oracle Deployment" }

def updateL1BlockProxySource : UpgradeDepositSource :=
  { Intent := "Ecotone: L1 Block Proxy Update" }

def updateGasPriceOracleSource : UpgradeDepositSource :=
  { Intent := "Ecotone: Gas Price Oracle Proxy Update" }

def enableEcotoneSource : UpgradeDepositSource :=
  { Intent := "Ecotone: Gas Price Oracle Set Ecotone" }

def beaconRootsSource : UpgradeDepositSource :=
  { Intent := "Ecotone: beacon block roots contract deployment" }

def enableEcotoneInput (env : Env) : Bytes :=
  (env.Keccak256 (stringBytes "setEcotone()")).bytes.take 4

def EIP4788From : Address :=
  HexToAddress "0x0B799C86a49DEeb90402691F1041aa3AF2d3C875"

def eip4788CreationData : Bytes :=
  FromHex "0x60618060095f395ff33373fffffffffffffffffffffffffffffffffffffffe14604d57602036146024575f5ffd5b5f35801560495762001fff810690815414603c575f5ffd5b62001fff01545f5260205ff35b5f5ffd5b62001fff42064281555f359062001fff015500"

def UpgradeToFuncBytes4 (env : Env) : Bytes :=
  (env.Keccak256 (stringBytes UpgradeToFuncSignature)).bytes.take 4

def l1BlockDeploymentBytecode (env : Env) : Bytes :=
  FromHex env.L1BlockBin

def gasPriceOracleDeploymentBytecode (env : Env) : Bytes :=
  FromHex env.GasPriceOracleBin

/-! ## The calldata helper (source lines 163-172) -/

/-- Result of running Go code that may panic. -/
inductive Outcome (α : Type) where
  | returns (a : α)
  | panics (msg : String)
deriving DecidableEq

/-- A `bytes.Buffer` used as an `io.Writer`: the bytes written so far.  The
capacity of the slice it was created from is an allocation hint only and is not
part of the state: the buffer grows on demand. -/
structure Buffer where
  buf : Bytes
deriving DecidableEq

/-- The call `bytes.NewBuffer(make([]byte, 0, capacity))`: an empty buffer. -/
def NewBuffer (_capacity : Nat) : Buffer :=
  { buf := [] }

/-- The method `(*bytes.Buffer).Write`: appends `p`, reports `len(p)` bytes
written and a nil error. -/
def Buffer.Write (b : Buffer) (p : Bytes) : Buffer × Nat × Option Error :=
  ({ buf := b.buf ++ p }, p.length, none)

/-- The method `(*bytes.Buffer).Bytes`. -/
def Buffer.Bytes (b : Buffer) : Bytes :=
  b.buf

/-- The twelve zero bytes that precede an address in its 32-byte ABI slot. -/
def addressEmptyPadding : Bytes :=
  List.replicate 12 0

/-- Modelled from the spec: the helper `solabi.WriteSignature` is imported from
the `op-service/solabi` package and is not among the sources.  The spec has the
calldata helper write the "4-byte selector" first; the helper writes the given
selector bytes to the writer and returns the error of that write. -/
def WriteSignature (w : Buffer) (sig : Bytes) : Buffer × Option Error :=
  match w.Write sig with
  | (w1, _, err) => (w1, err)

/-- Modelled from the spec: the helper `solabi.WriteAddress` is imported from
the `op-service/solabi` package and is not among the sources.  The spec
describes it as writing "a 32-byte-padded address argument", namely "a 32-byte
big-endian, left-zero-padded representation of the 20-byte address argument":
twelve zero bytes, then the twenty bytes of the address; an error of either
write is returned at once. -/
def WriteAddress (w : Buffer) (address : Address) : Buffer × Option Error :=
  match w.Write addressEmptyPadding with
  | (w1, _, some err) => (w1, some err)
  | (w1, _, none) =>
    match w1.Write address.bytes with
    | (w2, _, some err) => (w2, some err)
    | (w2, _, none) => (w2, none)

/-- The function `upgradeToCalldata`: selector, then the address argument,
written into a fresh buffer; a write error makes it panic. -/
def upgradeToCalldata (env : Env) (addr : Address) : Outcome Bytes :=
  let buf := NewBuffer (4 + 20)
  match WriteSignature buf (UpgradeToFuncBytes4 env) with
  | (_, some err) => .panics ("failed to write upgradeTo signature data: " ++ err)
  | (buf, none) =>
    match WriteAddress buf addr with
    | (_, some err) => .panics ("failed to write upgradeTo address data: " ++ err)
    | (buf, none) => .returns buf.Bytes

/-! ## The six descriptors (the `types.DepositTx` literals of the builder) -/

/-- The zero address `common.Address{}`. -/
def zeroAddress : Address :=
  { bytes := List.replicate 20 0, len := rfl }

/-- The literal of source lines 48-58. -/
def deployL1BlockTransactionTx (env : Env) : DepositTx :=
  { SourceHash := env.SourceHash deployL1BlockSource
    From := L1BlockDeployerAddress
    To := none
    Mint := some 0
    Value := some 0
    Gas := 500000
    Data := l1BlockDeploymentBytecode env }

/-- The literal of source lines 67-77. -/
def deployGasPriceOracleTx (env : Env) : DepositTx :=
  { SourceHash := env.SourceHash deployGasPriceOracleSource
    From := GasPriceOracleDeployerAddress
    To := none
    Mint := some 0
    Value := some 0
    Gas := 1000000
    Data := gasPriceOracleDeploymentBytecode env }

/-- The literal of source lines 86-96; building it runs `upgradeToCalldata`. -/
def updateL1BlockProxyTx (env : Env) : Outcome DepositTx :=
  match upgradeToCalldata env (newL1BlockAddress env) with
  | .panics msg => .panics msg
  | .returns data =>
    .returns
      { SourceHash := env.SourceHash updateL1BlockProxySource
        From := zeroAddress
        To := some env.L1BlockAddr
        Mint := some 0
        Value := some 0
        Gas := 50000
        Data := data }

/-- The literal of source lines 105-115; building it runs `upgradeToCalldata`. -/
def updateGasPriceOracleProxyTx (env : Env) : Outcome DepositTx :=
  match upgradeToCalldata env (newGasPriceOracleAddress env) with
  | .panics msg => .panics msg
  | .returns data =>
    .returns
      { SourceHash := env.SourceHash updateGasPriceOracleSource
        From := zeroAddress
        To := some env.GasPriceOracleAddr
        Mint := some 0
        Value := some 0
        Gas := 50000
        Data := data }

/-- The literal of source lines 124-134. -/
def enableEcotoneTx (env : Env) : DepositTx :=
  { SourceHash := env.SourceHash enableEcotoneSource
    From := env.L1InfoDepositerAddress
    To := some env.GasPriceOracleAddr
    Mint := some 0
    Value := some 0
    Gas := 80000
    Data := enableEcotoneInput env }

/-- The literal of source lines 141-151. -/
def deployEIP4788Tx (env : Env) : DepositTx :=
  { From := EIP4788From
    To := none
    Mint := some 0
    Value := some 0
    Gas := 0x3d090
    Data := eip4788CreationData
    SourceHash := env.SourceHash beaconRootsSource }

/-! ## The builder (source lines 45-161) -/

/-- The function `EcotoneNetworkUpgradeTransactions`.  A returned pair is Go's
`([]hexutil.Bytes, error)`: the empty list stands for the nil slice and `none`
for the nil error.  The capacity 5 of the initial slice is an allocation hint
and `append` grows the slice, so the list starts empty. -/
def EcotoneNetworkUpgradeTransactions (env : Env) : Outcome (List Bytes × Option Error) :=
  let upgradeTxns : List Bytes := []
  match env.MarshalBinary (deployL1BlockTransactionTx env) with
  | .error err => .returns ([], some err)
  | .ok deployL1BlockTransaction =>
  let upgradeTxns := upgradeTxns ++ [deployL1BlockTransaction]
  match env.MarshalBinary (deployGasPriceOracleTx env) with
  | .error err => .returns ([], some err)
  | .ok deployGasPriceOracle =>
  let upgradeTxns := upgradeTxns ++ [deployGasPriceOracle]
  match updateL1BlockProxyTx env with
  | .panics msg => .panics msg
  | .returns tx3 =>
  match env.MarshalBinary tx3 with
  | .error err => .returns ([], some err)
  | .ok updateL1BlockProxy =>
  let upgradeTxns := upgradeTxns ++ [updateL1BlockProxy]
  match updateGasPriceOracleProxyTx env with
  | .panics msg => .panics msg
  | .returns tx4 =>
  match env.MarshalBinary tx4 with
  | .error err => .returns ([], some err)
  | .ok updateGasPriceOracleProxy =>
  let upgradeTxns := upgradeTxns ++ [updateGasPriceOracleProxy]
  match env.MarshalBinary (enableEcotoneTx env) with
  | .error err => .returns ([], some err)
  | .ok enableEcotone =>
  let upgradeTxns := upgradeTxns ++ [enableEcotone]
  match env.MarshalBinary (deployEIP4788Tx env) with
  | .error err => .returns ([], some err)
  | .ok deployEIP4788 =>
  let upgradeTxns := upgradeTxns ++ [deployEIP4788]
  .returns (upgradeTxns, none)

/-! ## Concrete collaborators used to exercise the statements -/

/-- A 32-byte value whose first byte is `b` and whose other bytes are zero. -/
def sampleHash (b : Byte) : Hash :=
  { bytes := b :: List.replicate 31 0, len := rfl }

/-- A toy serialisation: the gas limit as one byte of `Gas / 10000`, followed
by the payload. -/
def sampleMarshal (tx : DepositTx) : Bytes :=
  Fin.ofNat (tx.Gas / 10000) :: tx.Data

/-- Collaborators under which every encoding succeeds. -/
def sampleEnv : Env :=
  { Keccak256 := fun b => sampleHash (Fin.ofNat b.length)
    CreateAddress := fun sender nonce =>
      BytesToAddress (sender.bytes.drop 1 ++ [Fin.ofNat (nonce + 7)])
    SourceHash := fun src => sampleHash (Fin.ofNat src.Intent.length)
    MarshalBinary := fun tx => .ok (sampleMarshal tx)
    L1BlockAddr := HexToAddress "0x4200000000000000000000000000000000000002"
    GasPriceOracleAddr := HexToAddress "0x4200000000000000000000000000000000000005"
    L1InfoDepositerAddress := HexToAddress "0xDeaDDEaDDeAdDeAdDEAdDEaddeAddEAdDEAd0001"
    L1BlockBin := "0x6080"
    GasPriceOracleBin := "0x60a0" }

/-- Collaborators under which the encoding fails exactly for the descriptors
whose gas limit is `gas`, with the payload length in the error message. -/
def failingEnv (gas : Nat) : Env :=
  { sampleEnv with
    MarshalBinary := fun tx =>
      if tx.Gas = gas then .error ("cannot encode " ++ toString tx.Data.length)
      else .ok (sampleMarshal tx) }

/-- The six intent strings, in the order in which the builder uses them. -/
def ecotoneIntents : List String :=
  [deployL1BlockSource.Intent, deployGasPriceOracleSource.Intent,
   updateL1BlockProxySource.Intent, updateGasPriceOracleSource.Intent,
   enableEcotoneSource.Intent, beaconRootsSource.Intent]

/-! ## The declarative form of the builder (spec, design notes) -/

/-- The static ordered table of the six descriptors.  Building the table runs
the calldata helper for the third and fourth record. -/
def ecotoneDescriptorTable (env : Env) : Outcome (List DepositTx) :=
  match updateL1BlockProxyTx env with
  | .panics msg => .panics msg
  | .returns tx3 =>
    match updateGasPriceOracleProxyTx env with
    | .panics msg => .panics msg
    | .returns tx4 =>
      .returns [deployL1BlockTransactionTx env, deployGasPriceOracleTx env, tx3, tx4,
        enableEcotoneTx env, deployEIP4788Tx env]

/-- Short-circuiting left-to-right map of an encoder over a list of
descriptors: the first failure aborts with its error, otherwise the encodings
are returned in list order. -/
def encodeAll (encode : DepositTx → Except Error Bytes) :
    List DepositTx → Except Error (List Bytes)
  | [] => .ok []
  | tx :: rest =>
    match encode tx with
    | .error err => .error err
    | .ok b =>
      match encodeAll encode rest with
      | .error err => .error err
      | .ok bs => .ok (b :: bs)

/-- The declarative builder of the spec's design notes: map the encoder over
the table, return the encodings, or no list and the error of the first
failure. -/
def declarativeUpgradeTransactions (env : Env) : Outcome (List Bytes × Option Error) :=
  match ecotoneDescriptorTable env with
  | .panics msg => .panics msg
  | .returns table =>
    match encodeAll env.MarshalBinary table with
    | .error err => .returns ([], some err)
    | .ok txns => .returns (txns, none)

/-! ## Further concrete collaborators -/

/-- The six descriptors built under the sample collaborators. -/
def sampleDescriptors : List DepositTx :=
  match ecotoneDescriptorTable sampleEnv with
  | .returns table => table
  | .panics _ => []

/-- A toy encoder that knows only the six sample descriptors: a descriptor is
encoded as the one byte holding its position in the table. -/
def indexMarshal (tx : DepositTx) : Except Error Bytes :=
  if sampleDescriptors.indexOf tx < sampleDescriptors.length then
    .ok [Fin.ofNat (sampleDescriptors.indexOf tx)]
  else .error "not an upgrade transaction"

/-- The decoder for `indexMarshal`: one byte is looked up in the table. -/
def indexUnmarshal (b : Bytes) : Except Error DepositTx :=
  match b with
  | [i] =>
    match sampleDescriptors[i.val]? with
    | some tx => .ok tx
    | none => .error "no such upgrade transaction"
  | _ => .error "malformed encoding"

/-- The sample collaborators with the position encoder. -/
def indexEnv : Env :=
  { sampleEnv with MarshalBinary := indexMarshal }

/-- Collaborators whose encoder rejects every descriptor with a gas limit of at
most 80,000 and names the first byte of the rejected source hash in the
error. -/
def rejectingEnv : Env :=
  { sampleEnv with
    MarshalBinary := fun tx =>
      if tx.Gas ≤ 80000 then
        .error ("rejected source " ++ toString (tx.SourceHash.bytes.headD 0).val)
      else .ok (sampleMarshal tx) }

/-! ## The package variables as state

Go has no constants of array or slice type: the addresses, sources, selectors
and bytecodes of source lines 20-43 are a `var ( ... )` block, that is, package
variables that an assignment can change (four of them are exported).  The
definitions above read them at their initial values.  The definitions of this
section make them an explicit state that an invocation receives and hands
on. -/

/-- The calldata helper always returns, and returns selector, padding, address. -/
theorem upgradeToCalldata_returns (env : Env) (addr : Address) :
    upgradeToCalldata env addr
      = .returns (UpgradeToFuncBytes4 env ++ addressEmptyPadding ++ addr.bytes) := by
  simp [upgradeToCalldata, WriteSignature, WriteAddress, Buffer.Write, Buffer.Bytes, NewBuffer]

/-- The selector constant has four bytes. -/
theorem UpgradeToFuncBytes4_length (env : Env) : (UpgradeToFuncBytes4 env).length = 4 := by
  simp [UpgradeToFuncBytes4, Hash.len]

/-- The third descriptor is always built, with the calldata for the new L1Block
implementation address as its payload. -/
theorem updateL1BlockProxyTx_returns (env : Env) :
    updateL1BlockProxyTx env = .returns
      { SourceHash := env.SourceHash updateL1BlockProxySource
        From := zeroAddress
        To := some env.L1BlockAddr
        Mint := some 0
        Value := some 0
        Gas := 50000
        Data := UpgradeToFuncBytes4 env ++ addressEmptyPadding ++ (newL1BlockAddress env).bytes } := by
  simp [updateL1BlockProxyTx, upgradeToCalldata_returns]

/-- The fourth descriptor is always built, with the calldata for the new
GasPriceOracle implementation address as its payload. -/
theorem updateGasPriceOracleProxyTx_returns (env : Env) :
    updateGasPriceOracleProxyTx env = .returns
      { SourceHash := env.SourceHash updateGasPriceOracleSource
        From := zeroAddress
        To := some env.GasPriceOracleAddr
        Mint := some 0
        Value := some 0
        Gas := 50000
        Data := UpgradeToFuncBytes4 env ++ addressEmptyPadding
          ++ (newGasPriceOracleAddress env).bytes } := by
  simp [updateGasPriceOracleProxyTx, upgradeToCalldata_returns]

/-- The builder once the two calldata-carrying descriptors are known. -/
theorem EcotoneNetworkUpgradeTransactions_unfold (env : Env) (tx3 tx4 : DepositTx)
    (h3 : updateL1BlockProxyTx env = .returns tx3)
    (h4 : updateGasPriceOracleProxyTx env = .returns tx4) :
    EcotoneNetworkUpgradeTransactions env =
      match env.MarshalBinary (deployL1BlockTransactionTx env) with
      | .error err => .returns ([], some err)
      | .ok b1 =>
      match env.MarshalBinary (deployGasPriceOracleTx env) with
      | .error err => .returns ([], some err)
      | .ok b2 =>
      match env.MarshalBinary tx3 with
      | .error err => .returns ([], some err)
      | .ok b3 =>
      match env.MarshalBinary tx4 with
      | .error err => .returns ([], some err)
      | .ok b4 =>
      match env.MarshalBinary (enableEcotoneTx env) with
      | .error err => .returns ([], some err)
      | .ok b5 =>
      match env.MarshalBinary (deployEIP4788Tx env) with
      | .error err => .returns ([], some err)
      | .ok b6 => .returns ([b1, b2, b3, b4, b5, b6], none) := by
  simp only [EcotoneNetworkUpgradeTransactions, h3, h4]
  cases env.MarshalBinary (deployL1BlockTransactionTx env) <;> simp only []
  cases env.MarshalBinary (deployGasPriceOracleTx env) <;> simp only []
  cases env.MarshalBinary tx3 <;> simp only []
  cases env.MarshalBinary tx4 <;> simp only []
  cases env.MarshalBinary (enableEcotoneTx env) <;> simp only []
  cases env.MarshalBinary (deployEIP4788Tx env) <;> simp

/-- Shape of the byte string `selector ++ padding ++ address`. -/
theorem calldata_shape (sel : Bytes) (hsel : sel.length = 4) (addr : Address) :
    (sel ++ addressEmptyPadding ++ addr.bytes).length = 36 ∧
    (sel ++ addressEmptyPadding ++ addr.bytes).take 4 = sel ∧
    ((sel ++ addressEmptyPadding ++ addr.bytes).drop 4).take 12 = List.replicate 12 0 ∧
    (sel ++ addressEmptyPadding ++ addr.bytes).drop 16 = addr.bytes := by
  have hpad : addressEmptyPadding.length = 12 := rfl
  refine ⟨?_, ?_, ?_, ?_⟩
  · simp only [List.length_append, hsel, hpad, addr.len]
  · rw [List.append_assoc]
    exact List.take_left' hsel
  · rw [List.append_assoc, List.drop_left' hsel]
    exact List.take_left' hpad
  · exact List.drop_left' (by rw [List.length_append, hsel, hpad])

/-- Outcome of the chain of six encodings, by cases on the six results. -/
theorem encoding_chain (r1 r2 r3 r4 r5 r6 : Except Error Bytes) :
    ∃ (txns : List Bytes) (err : Option Error),
      (match r1 with
        | .error err => Outcome.returns (([] : List Bytes), some err)
        | .ok b1 =>
        match r2 with
        | .error err => .returns ([], some err)
        | .ok b2 =>
        match r3 with
        | .error err => .returns ([], some err)
        | .ok b3 =>
        match r4 with
        | .error err => .returns ([], some err)
        | .ok b4 =>
        match r5 with
        | .error err => .returns ([], some err)
        | .ok b5 =>
        match r6 with
        | .error err => .returns ([], some err)
        | .ok b6 => .returns ([b1, b2, b3, b4, b5, b6], none)) = .returns (txns, err) ∧
      (err ≠ none ↔ ∃ r ∈ [r1, r2, r3, r4, r5, r6], ∃ e, r = .error e) ∧
      (err ≠ none → txns = []) ∧
      (∀ e, err = some e → ∃ r ∈ [r1, r2, r3, r4, r5, r6], r = .error e) := by
  rcases r1 with e1 | b1
  · exact ⟨[], some e1, rfl, by simp, by simp, by simp⟩
  rcases r2 with e2 | b2
  · exact ⟨[], some e2, rfl, by simp, by simp, by simp⟩
  rcases r3 with e3 | b3
  · exact ⟨[], some e3, rfl, by simp, by simp, by simp⟩
  rcases r4 with e4 | b4
  · exact ⟨[], some e4, rfl, by simp, by simp, by simp⟩
  rcases r5 with e5 | b5
  · exact ⟨[], some e5, rfl, by simp, by simp, by simp⟩
  rcases r6 with e6 | b6
  · exact ⟨[], some e6, rfl, by simp, by simp, by simp⟩
  · exact ⟨[b1, b2, b3, b4, b5, b6], none, rfl, by simp, by simp, by simp⟩

/-- A successful encoder maps over a list without aborting. -/
theorem encodeAll_ok (f : DepositTx → Bytes) (table : List DepositTx) :
    encodeAll (fun tx => .ok (f tx)) table = .ok (table.map f) := by
  induction table with
  | nil => rfl
  | cons tx rest ih => simp only [encodeAll, ih, List.map_cons]

/-- The builder with an arbitrary encoder in place of `MarshalBinary`: it hands
the six descriptors to the encoder in source order and stops at the first
failure. -/
theorem EcotoneNetworkUpgradeTransactions_with_encoder (env : Env) (tx3 tx4 : DepositTx)
    (h3 : updateL1BlockProxyTx env = .returns tx3)
    (h4 : updateGasPriceOracleProxyTx env = .returns tx4)
    (encode : DepositTx → Except Error Bytes) :
    EcotoneNetworkUpgradeTransactions { env with MarshalBinary := encode } =
      match encodeAll encode [deployL1BlockTransactionTx env, deployGasPriceOracleTx env,
          tx3, tx4, enableEcotoneTx env, deployEIP4788Tx env] with
      | .error err => .returns ([], some err)
      | .ok txns => .returns (txns, none) := by
  have h3e : updateL1BlockProxyTx { env with MarshalBinary := encode } = .returns tx3 := h3
  have h4e : updateGasPriceOracleProxyTx { env with MarshalBinary := encode } = .returns tx4 := h4
  simp only [EcotoneNetworkUpgradeTransactions, h3e, h4e, encodeAll]
  show (match encode (deployL1BlockTransactionTx env) with
      | .error err => Outcome.returns (([] : List Bytes), some err)
      | .ok b1 => _) = _
  cases encode (deployL1BlockTransactionTx env) <;> simp only []
  show (match encode (deployGasPriceOracleTx env) with
      | .error err => Outcome.returns (([] : List Bytes), some err)
      | .ok b2 => _) = _
  cases encode (deployGasPriceOracleTx env) <;> simp only []
  cases encode tx3 <;> simp only []
  cases encode tx4 <;> simp only []
  show (match encode (enableEcotoneTx env) with
      | .error err => Outcome.returns (([] : List Bytes), some err)
      | .ok b5 => _) = _
  cases encode (enableEcotoneTx env) <;> simp only []
  show (match encode (deployEIP4788Tx env) with
      | .error err => Outcome.returns (([] : List Bytes), some err)
      | .ok b6 => _) = _
  cases encode (deployEIP4788Tx env) <;> simp

/-- Two lists of descriptors that give the same result under every encoder are
the same list: the list a builder hands to its encoder is determined by the
builder. -/
theorem descriptor_table_unique (T U : List DepositTx)
    (h : ∀ encode : DepositTx → Except Error Bytes,
      (match encodeAll encode T with
        | .error err => Outcome.returns (([] : List Bytes), some err)
        | .ok txns => .returns (txns, none)) =
      (match encodeAll encode U with
        | .error err => Outcome.returns (([] : List Bytes), some err)
        | .ok txns => .returns (txns, none))) :
    T = U := by
  have hmap : ∀ a : DepositTx,
      T.map (fun tx => if tx = a then ([1] : Bytes) else [0])
        = U.map (fun tx => if tx = a then ([1] : Bytes) else [0]) := by
    intro a
    have ha := h (fun tx => .ok (if tx = a then ([1] : Bytes) else [0]))
    rw [encodeAll_ok, encodeAll_ok] at ha
    simp only [Outcome.returns.injEq, Prod.mk.injEq, and_true] at ha
    exact ha
  have hlen : T.length = U.length := by
    cases T with
    | nil =>
      cases U with
      | nil => rfl
      | cons b rest => exact absurd (hmap b) (by simp)
    | cons a rest =>
      have h0 := congrArg List.length (hmap a)
      simpa using h0
  apply List.ext_getElem hlen
  intro i hT hU
  have hi := congrArg (fun l => l[i]?) (hmap T[i])
  simp only [List.getElem?_map, List.getElem?_eq_getElem hT, List.getElem?_eq_getElem hU,
    Option.map_some', if_true, Option.some.injEq] at hi
  by_contra hne
  rw [if_neg (fun hEq => hne hEq.symm)] at hi
  simp at hi

/-- Positions of the descriptors without recipient in a list of six whose
first, second and sixth have none and whose third, fourth and fifth have one. -/
theorem recipient_free_positions (t1 t2 t3 t4 t5 t6 : DepositTx)
    (h1 : t1.To = none) (h2 : t2.To = none) (h3 : t3.To ≠ none) (h4 : t4.To ≠ none)
    (h5 : t5.To ≠ none) (h6 : t6.To = none) (i : Nat) :
    (∃ tx, [t1, t2, t3, t4, t5, t6][i]? = some tx ∧ tx.To = none)
      ↔ (i = 0 ∨ i = 1 ∨ i = 5) := by
  constructor
  · rintro ⟨tx, hget, hto⟩
    match i, hget with
    | 0, _ => exact Or.inl rfl
    | 1, _ => exact Or.inr (Or.inl rfl)
    | 2, hget =>
      simp only [List.getElem?_cons_succ, List.getElem?_cons_zero, Option.some.injEq] at hget
      subst hget
      exact absurd hto h3
    | 3, hget =>
      simp only [List.getElem?_cons_succ, List.getElem?_cons_zero, Option.some.injEq] at hget
      subst hget
      exact absurd hto h4
    | 4, hget =>
      simp only [List.getElem?_cons_succ, List.getElem?_cons_zero, Option.some.injEq] at hget
      subst hget
      exact absurd hto h5
    | 5, _ => exact Or.inr (Or.inr rfl)
    | n + 6, hget => simp [List.getElem?_cons_succ] at hget
  · rintro (rfl | rfl | rfl)
    · exact ⟨t1, rfl, h1⟩
    · exact ⟨t2, rfl, h2⟩
    · exact ⟨t6, rfl, h6⟩

/-- Positions of the descriptors with a recipient in such a list. -/
theorem recipient_positions (t1 t2 t3 t4 t5 t6 : DepositTx)
    (h1 : t1.To = none) (h2 : t2.To = none) (h3 : t3.To ≠ none) (h4 : t4.To ≠ none)
    (h5 : t5.To ≠ none) (h6 : t6.To = none) (i : Nat) :
    (∃ tx, [t1, t2, t3, t4, t5, t6][i]? = some tx ∧ tx.To ≠ none)
      ↔ (i = 2 ∨ i = 3 ∨ i = 4) := by
  constructor
  · rintro ⟨tx, hget, hto⟩
    match i, hget with
    | 0, hget =>
      simp only [List.getElem?_cons_zero, Option.some.injEq] at hget
      subst hget
      exact absurd h1 hto
    | 1, hget =>
      simp only [List.getElem?_cons_succ, List.getElem?_cons_zero, Option.some.injEq] at hget
      subst hget
      exact absurd h2 hto
    | 2, _ => exact Or.inl rfl
    | 3, _ => exact Or.inr (Or.inl rfl)
    | 4, _ => exact Or.inr (Or.inr rfl)
    | 5, hget =>
      simp only [List.getElem?_cons_succ, List.getElem?_cons_zero, Option.some.injEq] at hget
      subst hget
      exact absurd h6 hto
    | n + 6, hget => simp [List.getElem?_cons_succ] at hget
  · rintro (rfl | rfl | rfl)
    · exact ⟨t3, rfl, h3⟩
    · exact ⟨t4, rfl, h4⟩
    · exact ⟨t5, rfl, h5⟩

/-! ## The claims -/

/-- C1: whenever all six encodings succeed, the builder returns exactly six
entries and no error, and entry i is the encoding of the i-th descriptor in the
order L1Block deployment, GasPriceOracle deployment, L1Block proxy update,
GasPriceOracle proxy update, setEcotone call, beacon block roots deployment
(the two proxy-update descriptors are always built, without a panic). -/
theorem EcotoneNetworkUpgradeTransactions_six_in_order (env : Env) :
    ∃ tx3 tx4 : DepositTx,
      updateL1BlockProxyTx env = .returns tx3 ∧
      updateGasPriceOracleProxyTx env = .returns tx4 ∧
      ∀ b1 b2 b3 b4 b5 b6 : Bytes,
        env.MarshalBinary (deployL1BlockTransactionTx env) = .ok b1 →
        env.MarshalBinary (deployGasPriceOracleTx env) = .ok b2 →
        env.MarshalBinary tx3 = .ok b3 →
        env.MarshalBinary tx4 = .ok b4 →
        env.MarshalBinary (enableEcotoneTx env) = .ok b5 →
        env.MarshalBinary (deployEIP4788Tx env) = .ok b6 →
        EcotoneNetworkUpgradeTransactions env = .returns ([b1, b2, b3, b4, b5, b6], none) ∧
        [b1, b2, b3, b4, b5, b6].length = 6 := by
  refine ⟨_, _, updateL1BlockProxyTx_returns env, updateGasPriceOracleProxyTx_returns env, ?_⟩
  intro b1 b2 b3 b4 b5 b6 e1 e2 e3 e4 e5 e6
  rw [EcotoneNetworkUpgradeTransactions_unfold env _ _ (updateL1BlockProxyTx_returns env)
    (updateGasPriceOracleProxyTx_returns env)]
  simp only [e1, e2, e3, e4, e5, e6, List.length_cons, List.length_nil, and_self]

/-- C1, exercised: with the sample collaborators the builder returns the six
sample encodings of the six descriptors, in order. -/
theorem EcotoneNetworkUpgradeTransactions_six_in_order_witness :
    ∃ tx3 tx4 : DepositTx,
      updateL1BlockProxyTx sampleEnv = .returns tx3 ∧
      updateGasPriceOracleProxyTx sampleEnv = .returns tx4 ∧
      EcotoneNetworkUpgradeTransactions sampleEnv = .returns
        ([sampleMarshal (deployL1BlockTransactionTx sampleEnv),
          sampleMarshal (deployGasPriceOracleTx sampleEnv),
          sampleMarshal tx3, sampleMarshal tx4,
          sampleMarshal (enableEcotoneTx sampleEnv),
          sampleMarshal (deployEIP4788Tx sampleEnv)], none) := by
  obtain ⟨tx3, tx4, h3, h4, h⟩ := EcotoneNetworkUpgradeTransactions_six_in_order sampleEnv
  exact ⟨tx3, tx4, h3, h4, (h _ _ _ _ _ _ rfl rfl rfl rfl rfl rfl).1⟩

/-- C2: for every encoding collaborator the builder returns a pair (it does not
panic); the error of the pair is set if and only if the encoding of at least
one of the six descriptors fails; when it is set the returned list is the
nil/empty list, and the single error reported is the error of one of the
failing encodings. -/
theorem EcotoneNetworkUpgradeTransactions_error_iff (env : Env) :
    ∃ tx3 tx4 : DepositTx,
      updateL1BlockProxyTx env = .returns tx3 ∧
      updateGasPriceOracleProxyTx env = .returns tx4 ∧
      ∃ (txns : List Bytes) (err : Option Error),
        EcotoneNetworkUpgradeTransactions env = .returns (txns, err) ∧
        (err ≠ none ↔
          ∃ r ∈ [env.MarshalBinary (deployL1BlockTransactionTx env),
                 env.MarshalBinary (deployGasPriceOracleTx env),
                 env.MarshalBinary tx3, env.MarshalBinary tx4,
                 env.MarshalBinary (enableEcotoneTx env),
                 env.MarshalBinary (deployEIP4788Tx env)], ∃ e, r = .error e) ∧
        (err ≠ none → txns = []) ∧
        (∀ e, err = some e →
          ∃ r ∈ [env.MarshalBinary (deployL1BlockTransactionTx env),
                 env.MarshalBinary (deployGasPriceOracleTx env),
                 env.MarshalBinary tx3, env.MarshalBinary tx4,
                 env.MarshalBinary (enableEcotoneTx env),
                 env.MarshalBinary (deployEIP4788Tx env)], r = .error e) := by
  refine ⟨_, _, updateL1BlockProxyTx_returns env, updateGasPriceOracleProxyTx_returns env, ?_⟩
  rw [EcotoneNetworkUpgradeTransactions_unfold env _ _ (updateL1BlockProxyTx_returns env)
    (updateGasPriceOracleProxyTx_returns env)]
  exact encoding_chain _ _ _ _ _ _

/-- C2, exercised: when the sample encoder rejects the two proxy-update
descriptors the builder reports an error and returns the empty list; the
value it returns is the error of the first rejected descriptor. -/
theorem EcotoneNetworkUpgradeTransactions_error_iff_witness :
    (∃ (txns : List Bytes) (err : Option Error),
      EcotoneNetworkUpgradeTransactions (failingEnv 50000) = .returns (txns, err) ∧
      err ≠ none ∧ txns = []) ∧
    EcotoneNetworkUpgradeTransactions (failingEnv 50000)
      = .returns ([], some "cannot encode 36") := by
  refine ⟨?_, by decide⟩
  obtain ⟨tx3, tx4, h3, _, txns, err, hrun, hiff, hnil, _⟩ :=
    EcotoneNetworkUpgradeTransactions_error_iff (failingEnv 50000)
  have htx3 := h3.symm.trans (updateL1BlockProxyTx_returns (failingEnv 50000))
  injection htx3 with htx3
  have herr : err ≠ none := by
    refine hiff.mpr ⟨(failingEnv 50000).MarshalBinary tx3, ?_, "cannot encode 36", ?_⟩
    · simp only [List.mem_cons, true_or, or_true]
    · rw [htx3]
      rfl
  exact ⟨txns, err, hrun, herr, hnil herr⟩

/-- C3: the builder hands six descriptors t1..t6 to the encoder, in this order,
whatever the encoder is; the payload of the third is the calldata for the
contract-creation address of `L1BlockDeployerAddress` at nonce 0 and its
trailing 20 bytes are that address; the payload of the fourth is the calldata
for the contract-creation address of `GasPriceOracleDeployerAddress` at nonce 0
and its trailing 20 bytes are that address; the two deployers are the senders
of the first and of the second descriptor. -/
theorem proxy_update_calldata_address (env : Env) :
    ∃ t1 t2 t3 t4 t5 t6 : DepositTx,
      (∀ encode : DepositTx → Except Error Bytes,
        EcotoneNetworkUpgradeTransactions { env with MarshalBinary := encode } =
          match encodeAll encode [t1, t2, t3, t4, t5, t6] with
          | .error err => .returns ([], some err)
          | .ok txns => .returns (txns, none)) ∧
      upgradeToCalldata env (env.CreateAddress L1BlockDeployerAddress 0) = .returns t3.Data ∧
      upgradeToCalldata env (env.CreateAddress GasPriceOracleDeployerAddress 0)
        = .returns t4.Data ∧
      t3.Data.drop (t3.Data.length - 20) = (env.CreateAddress L1BlockDeployerAddress 0).bytes ∧
      t4.Data.drop (t4.Data.length - 20)
        = (env.CreateAddress GasPriceOracleDeployerAddress 0).bytes ∧
      t1.From = L1BlockDeployerAddress ∧
      t2.From = GasPriceOracleDeployerAddress := by
  refine ⟨deployL1BlockTransactionTx env, deployGasPriceOracleTx env, _, _,
    enableEcotoneTx env, deployEIP4788Tx env,
    EcotoneNetworkUpgradeTransactions_with_encoder env _ _ (updateL1BlockProxyTx_returns env)
      (updateGasPriceOracleProxyTx_returns env),
    upgradeToCalldata_returns env _, upgradeToCalldata_returns env _, ?_, ?_, rfl, rfl⟩
  · obtain ⟨hlen, _, _, hdrop⟩ :=
      calldata_shape (UpgradeToFuncBytes4 env) (UpgradeToFuncBytes4_length env)
        (newL1BlockAddress env)
    show List.drop (List.length (UpgradeToFuncBytes4 env ++ addressEmptyPadding
      ++ (newL1BlockAddress env).bytes) - 20) _ = _
    rw [hlen]
    exact hdrop
  · obtain ⟨hlen, _, _, hdrop⟩ :=
      calldata_shape (UpgradeToFuncBytes4 env) (UpgradeToFuncBytes4_length env)
        (newGasPriceOracleAddress env)
    show List.drop (List.length (UpgradeToFuncBytes4 env ++ addressEmptyPadding
      ++ (newGasPriceOracleAddress env).bytes) - 20) _ = _
    rw [hlen]
    exact hdrop

/-- C4, as stated, fails: for the sample collaborators and the address
`L1BlockDeployerAddress` the calldata has 36 bytes, not 24, and its bytes
4 to 24 are twelve zero bytes and the first eight address bytes. -/
theorem upgradeToCalldata_24_bytes_counterexample :
    upgradeToCalldata sampleEnv L1BlockDeployerAddress = .returns
        [18, 0, 0, 0,
         0, 0, 0, 0, 0, 0, 0, 0, 0, 0, 0, 0,
         0x42, 0x10, 0, 0, 0, 0, 0, 0, 0, 0, 0, 0, 0, 0, 0, 0, 0, 0, 0, 0] ∧
      ¬ ∃ out : Bytes,
        upgradeToCalldata sampleEnv L1BlockDeployerAddress = .returns out ∧
        out.length = 24 ∧
        out.take 4 = UpgradeToFuncBytes4 sampleEnv ∧
        (out.drop 4).take 20 = L1BlockDeployerAddress.bytes := by
  have hrun : upgradeToCalldata sampleEnv L1BlockDeployerAddress = .returns
      [18, 0, 0, 0,
       0, 0, 0, 0, 0, 0, 0, 0, 0, 0, 0, 0,
       0x42, 0x10, 0, 0, 0, 0, 0, 0, 0, 0, 0, 0, 0, 0, 0, 0, 0, 0, 0, 0] := by decide
  refine ⟨hrun, ?_⟩
  rintro ⟨out, hout, hlen, -, -⟩
  rw [hrun] at hout
  injection hout with hout
  subst hout
  revert hlen
  decide

/-- C4, amended: for every address the calldata helper returns a byte string of
length exactly 36 whose bytes 0 to 4 are the selector `UpgradeToFuncBytes4`,
whose bytes 4 to 16 are zero and whose bytes 16 to 36 are the 20 bytes of the
address. -/
theorem upgradeToCalldata_shape (env : Env) (A : Address) :
    ∃ out : Bytes,
      upgradeToCalldata env A = .returns out ∧
      out.length = 36 ∧
      out.take 4 = UpgradeToFuncBytes4 env ∧
      (out.drop 4).take 12 = List.replicate 12 0 ∧
      (out.drop 16).take 20 = A.bytes := by
  obtain ⟨hlen, htake, hpad, hdrop⟩ :=
    calldata_shape (UpgradeToFuncBytes4 env) (UpgradeToFuncBytes4_length env) A
  refine ⟨_, upgradeToCalldata_returns env A, hlen, htake, hpad, ?_⟩
  rw [hdrop]
  exact List.take_of_length_le (le_of_eq A.len)

/-- C5: for every address the calldata helper returns the first four bytes of
Keccak-256 of the string "upgradeTo(address)", then twelve zero bytes, then the
twenty bytes of the address: 36 bytes, a 4-byte selector and one 32-byte slot. -/
theorem upgradeToCalldata_selector_then_padded_slot (env : Env) (A : Address) :
    upgradeToCalldata env A = .returns
        ((env.Keccak256 (stringBytes "upgradeTo(address)")).bytes.take 4
          ++ (List.replicate 12 0 ++ A.bytes)) ∧
      ((env.Keccak256 (stringBytes "upgradeTo(address)")).bytes.take 4).length = 4 ∧
      (List.replicate 12 (0 : Byte) ++ A.bytes).length = 32 ∧
      ((env.Keccak256 (stringBytes "upgradeTo(address)")).bytes.take 4
          ++ (List.replicate 12 0 ++ A.bytes)).length = 36 := by
  have hsel := UpgradeToFuncBytes4_length env
  have hslot : (List.replicate 12 (0 : Byte) ++ A.bytes).length = 32 := by
    rw [List.length_append, List.length_replicate, A.len]
  refine ⟨?_, hsel, hslot, ?_⟩
  · rw [upgradeToCalldata_returns, List.append_assoc]
    rfl
  · rw [List.length_append, hslot]
    show (UpgradeToFuncBytes4 env).length + 32 = 36
    rw [hsel]

/-- C6: the six intent strings are pairwise different, and for every source-hash
derivation that is injective on a set of strings containing them, the source
hashes of the six descriptors are pairwise different. -/
theorem source_hashes_pairwise_distinct (env : Env) (S : Set String)
    (hS : ∀ s ∈ ecotoneIntents, s ∈ S)
    (hinj : Set.InjOn (fun s => env.SourceHash { Intent := s }) S) :
    ecotoneIntents.Nodup ∧
    ∃ tx3 tx4 : DepositTx,
      updateL1BlockProxyTx env = .returns tx3 ∧
      updateGasPriceOracleProxyTx env = .returns tx4 ∧
      [(deployL1BlockTransactionTx env).SourceHash, (deployGasPriceOracleTx env).SourceHash,
       tx3.SourceHash, tx4.SourceHash,
       (enableEcotoneTx env).SourceHash, (deployEIP4788Tx env).SourceHash].Nodup := by
  have hnodup : ecotoneIntents.Nodup := by decide
  refine ⟨hnodup, _, _, updateL1BlockProxyTx_returns env,
    updateGasPriceOracleProxyTx_returns env, ?_⟩
  exact List.Nodup.map_on (f := fun s => env.SourceHash { Intent := s })
    (fun a ha b hb hab => hinj (hS a ha) (hS b hb) hab) hnodup

/-- C6, exercised: the sample source-hash derivation is injective on the set of
the six intents, so the six sample hashes are pairwise different. -/
theorem source_hashes_pairwise_distinct_witness :
    (∀ s ∈ ecotoneIntents, s ∈ {s : String | s ∈ ecotoneIntents}) ∧
    Set.InjOn (fun s => sampleEnv.SourceHash { Intent := s }) {s : String | s ∈ ecotoneIntents} ∧
    ecotoneIntents.Nodup ∧
    ∃ tx3 tx4 : DepositTx,
      updateL1BlockProxyTx sampleEnv = .returns tx3 ∧
      updateGasPriceOracleProxyTx sampleEnv = .returns tx4 ∧
      [(deployL1BlockTransactionTx sampleEnv).SourceHash,
       (deployGasPriceOracleTx sampleEnv).SourceHash,
       tx3.SourceHash, tx4.SourceHash,
       (enableEcotoneTx sampleEnv).SourceHash, (deployEIP4788Tx sampleEnv).SourceHash].Nodup := by
  have hS : ∀ s ∈ ecotoneIntents, s ∈ {s : String | s ∈ ecotoneIntents} := fun s hs => hs
  have key : ∀ x ∈ ecotoneIntents, ∀ y ∈ ecotoneIntents,
      sampleEnv.SourceHash { Intent := x } = sampleEnv.SourceHash { Intent := y } → x = y := by
    decide
  have hinj : Set.InjOn (fun s => sampleEnv.SourceHash { Intent := s })
      {s : String | s ∈ ecotoneIntents} := fun a ha b hb hab => key a ha b hb hab
  exact ⟨hS, hinj, source_hashes_pairwise_distinct sampleEnv _ hS hinj⟩

/-- C7: the builder hands six descriptors t1..t6 to the encoder, in this order,
whatever the encoder is, and the source hash of the i-th of them is the
source-hash derivation applied to the i-th intent string of the list "Ecotone:
L1 Block Deployment", "Ecotone: Gas Price Oracle Deployment", "Ecotone: L1
Block Proxy Update", "Ecotone: Gas Price Oracle Proxy Update", "Ecotone: Gas
Price Oracle Set Ecotone", "Ecotone: beacon block roots contract deployment". -/
theorem descriptor_source_hashes (env : Env) :
    ∃ t1 t2 t3 t4 t5 t6 : DepositTx,
      (∀ encode : DepositTx → Except Error Bytes,
        EcotoneNetworkUpgradeTransactions { env with MarshalBinary := encode } =
          match encodeAll encode [t1, t2, t3, t4, t5, t6] with
          | .error err => .returns ([], some err)
          | .ok txns => .returns (txns, none)) ∧
      t1.SourceHash = env.SourceHash { Intent := "Ecotone: L1 Block Deployment" } ∧
      t2.SourceHash = env.SourceHash { Intent := "Ecotone: Gas Price Oracle Deployment" } ∧
      t3.SourceHash = env.SourceHash { Intent := "Ecotone: L1 Block Proxy Update" } ∧
      t4.SourceHash = env.SourceHash { Intent := "Ecotone: Gas Price Oracle Proxy Update" } ∧
      t5.SourceHash = env.SourceHash { Intent := "Ecotone: Gas Price Oracle Set Ecotone" } ∧
      t6.SourceHash
        = env.SourceHash { Intent := "Ecotone: beacon block roots contract deployment" } := by
  refine ⟨deployL1BlockTransactionTx env, deployGasPriceOracleTx env, _, _,
    enableEcotoneTx env, deployEIP4788Tx env,
    EcotoneNetworkUpgradeTransactions_with_encoder env _ _ (updateL1BlockProxyTx_returns env)
      (updateGasPriceOracleProxyTx_returns env),
    rfl, rfl, rfl, rfl, rfl, rfl⟩

/-- C8: the builder hands six descriptors t1..t6 to the encoder, in this order,
whatever the encoder is.  Of these, exactly the first, second and sixth have no
recipient (the third, fourth and fifth have one); the first is sent by
`L1BlockDeployerAddress` (0x4210...0000) with gas 500,000 and the L1Block
deployment bytecode; the second by `GasPriceOracleDeployerAddress`
(0x4210...0001) with gas 1,000,000 and the GasPriceOracle deployment bytecode;
the sixth by `EIP4788From` (0x0B799C86a49DEeb90402691F1041aa3AF2d3C875) with
gas 0x3d090 = 250,000 and `eip4788CreationData`. -/
theorem creation_descriptors (env : Env) :
    ∃ t1 t2 t3 t4 t5 t6 : DepositTx,
      (∀ encode : DepositTx → Except Error Bytes,
        EcotoneNetworkUpgradeTransactions { env with MarshalBinary := encode } =
          match encodeAll encode [t1, t2, t3, t4, t5, t6] with
          | .error err => .returns ([], some err)
          | .ok txns => .returns (txns, none)) ∧
      (∀ i : Nat, (∃ tx, [t1, t2, t3, t4, t5, t6][i]? = some tx ∧ tx.To = none)
        ↔ (i = 0 ∨ i = 1 ∨ i = 5)) ∧
      (t1.To = none ∧ t1.From = L1BlockDeployerAddress ∧ t1.Gas = 500000 ∧
        t1.Data = l1BlockDeploymentBytecode env) ∧
      (t2.To = none ∧ t2.From = GasPriceOracleDeployerAddress ∧ t2.Gas = 1000000 ∧
        t2.Data = gasPriceOracleDeploymentBytecode env) ∧
      (t6.To = none ∧ t6.From = EIP4788From ∧ t6.Gas = 250000 ∧
        t6.Data = eip4788CreationData) ∧
      (t3.To ≠ none ∧ t4.To ≠ none ∧ t5.To ≠ none) ∧
      L1BlockDeployerAddress.bytes
        = [0x42, 0x10, 0, 0, 0, 0, 0, 0, 0, 0, 0, 0, 0, 0, 0, 0, 0, 0, 0, 0] ∧
      GasPriceOracleDeployerAddress.bytes
        = [0x42, 0x10, 0, 0, 0, 0, 0, 0, 0, 0, 0, 0, 0, 0, 0, 0, 0, 0, 0, 1] ∧
      EIP4788From.bytes
        = [0x0B, 0x79, 0x9C, 0x86, 0xa4, 0x9D, 0xEe, 0xb9, 0x04, 0x02,
           0x69, 0x1F, 0x10, 0x41, 0xaa, 0x3A, 0xF2, 0xd3, 0xC8, 0x75] := by
  refine ⟨deployL1BlockTransactionTx env, deployGasPriceOracleTx env, _, _,
    enableEcotoneTx env, deployEIP4788Tx env,
    EcotoneNetworkUpgradeTransactions_with_encoder env _ _ (updateL1BlockProxyTx_returns env)
      (updateGasPriceOracleProxyTx_returns env),
    ?_, ⟨rfl, rfl, rfl, rfl⟩, ⟨rfl, rfl, rfl, rfl⟩,
    ⟨rfl, rfl, rfl, by simp only [deployEIP4788Tx]⟩,
    ⟨Option.some_ne_none _, Option.some_ne_none _, Option.some_ne_none _⟩,
    by decide, by decide, by decide⟩
  exact recipient_free_positions _ _ _ _ _ _ rfl rfl (Option.some_ne_none _)
    (Option.some_ne_none _) (Option.some_ne_none _) rfl

/-- C9: the builder hands six descriptors t1..t6 to the encoder, in this order,
whatever the encoder is.  Of these, exactly the third, fourth and fifth have a
recipient (the first, second and sixth have none); the third is sent by the
zero address to the L1Block proxy with gas 50,000; the fourth by the zero
address to the GasPriceOracle proxy with gas 50,000; the fifth by
`L1InfoDepositerAddress` to the GasPriceOracle proxy with gas 80,000 and, as
payload, exactly the first four bytes of Keccak-256 of "setEcotone()". -/
theorem call_descriptors (env : Env) :
    ∃ t1 t2 t3 t4 t5 t6 : DepositTx,
      (∀ encode : DepositTx → Except Error Bytes,
        EcotoneNetworkUpgradeTransactions { env with MarshalBinary := encode } =
          match encodeAll encode [t1, t2, t3, t4, t5, t6] with
          | .error err => .returns ([], some err)
          | .ok txns => .returns (txns, none)) ∧
      (∀ i : Nat, (∃ tx, [t1, t2, t3, t4, t5, t6][i]? = some tx ∧ tx.To ≠ none)
        ↔ (i = 2 ∨ i = 3 ∨ i = 4)) ∧
      (t3.From = zeroAddress ∧ t3.To = some env.L1BlockAddr ∧ t3.Gas = 50000) ∧
      (t4.From = zeroAddress ∧ t4.To = some env.GasPriceOracleAddr ∧ t4.Gas = 50000) ∧
      (t5.From = env.L1InfoDepositerAddress ∧
        t5.To = some env.GasPriceOracleAddr ∧
        t5.Gas = 80000 ∧
        t5.Data = (env.Keccak256 (stringBytes "setEcotone()")).bytes.take 4 ∧
        t5.Data.length = 4) ∧
      (t1.To = none ∧ t2.To = none ∧ t6.To = none) ∧
      zeroAddress.bytes = List.replicate 20 0 := by
  refine ⟨deployL1BlockTransactionTx env, deployGasPriceOracleTx env, _, _,
    enableEcotoneTx env, deployEIP4788Tx env,
    EcotoneNetworkUpgradeTransactions_with_encoder env _ _ (updateL1BlockProxyTx_returns env)
      (updateGasPriceOracleProxyTx_returns env),
    ?_, ⟨rfl, rfl, rfl⟩, ⟨rfl, rfl, rfl⟩, ⟨rfl, rfl, rfl, rfl, ?_⟩, ⟨rfl, rfl, rfl⟩, rfl⟩
  · exact recipient_positions _ _ _ _ _ _ rfl rfl (Option.some_ne_none _)
      (Option.some_ne_none _) (Option.some_ne_none _) rfl
  · show ((env.Keccak256 (stringBytes "setEcotone()")).bytes.take 4).length = 4
    simp [Hash.len]

/-- C10: the builder hands six descriptors t1..t6 to the encoder, in this
order, whatever the encoder is, and each of the six has `Mint` and `Value` set
(not nil) and equal to zero. -/
theorem descriptors_mint_value_zero (env : Env) :
    ∃ t1 t2 t3 t4 t5 t6 : DepositTx,
      (∀ encode : DepositTx → Except Error Bytes,
        EcotoneNetworkUpgradeTransactions { env with MarshalBinary := encode } =
          match encodeAll encode [t1, t2, t3, t4, t5, t6] with
          | .error err => .returns ([], some err)
          | .ok txns => .returns (txns, none)) ∧
      ∀ tx ∈ [t1, t2, t3, t4, t5, t6], tx.Mint = some 0 ∧ tx.Value = some 0 := by
  refine ⟨deployL1BlockTransactionTx env, deployGasPriceOracleTx env, _, _,
    enableEcotoneTx env, deployEIP4788Tx env,
    EcotoneNetworkUpgradeTransactions_with_encoder env _ _ (updateL1BlockProxyTx_returns env)
      (updateGasPriceOracleProxyTx_returns env),
    ?_⟩
  intro tx htx
  simp only [List.mem_cons, List.mem_singleton, List.not_mem_nil, or_false] at htx
  rcases htx with rfl | rfl | rfl | rfl | rfl | rfl <;> exact ⟨rfl, rfl⟩

/-- C11: the builder hands six descriptors t1..t6 to the encoder, in this
order, whatever the encoder is, and each of the six has its system-transaction
flag equal to false (no literal of the builder sets the field, so it keeps its
default). -/
theorem descriptors_not_system_transactions (env : Env) :
    ∃ t1 t2 t3 t4 t5 t6 : DepositTx,
      (∀ encode : DepositTx → Except Error Bytes,
        EcotoneNetworkUpgradeTransactions { env with MarshalBinary := encode } =
          match encodeAll encode [t1, t2, t3, t4, t5, t6] with
          | .error err => .returns ([], some err)
          | .ok txns => .returns (txns, none)) ∧
      ∀ tx ∈ [t1, t2, t3, t4, t5, t6], tx.IsSystemTransaction = false := by
  refine ⟨deployL1BlockTransactionTx env, deployGasPriceOracleTx env, _, _,
    enableEcotoneTx env, deployEIP4788Tx env,
    EcotoneNetworkUpgradeTransactions_with_encoder env _ _ (updateL1BlockProxyTx_returns env)
      (updateGasPriceOracleProxyTx_returns env),
    ?_⟩
  intro tx htx
  simp only [List.mem_cons, List.mem_singleton, List.not_mem_nil, or_false] at htx
  rcases htx with rfl | rfl | rfl | rfl | rfl | rfl <;> rfl

/-! ## Further helper lemmas -/

/-- The table once the two calldata-carrying descriptors are known. -/
theorem ecotoneDescriptorTable_eq (env : Env) (tx3 tx4 : DepositTx)
    (h3 : updateL1BlockProxyTx env = .returns tx3)
    (h4 : updateGasPriceOracleProxyTx env = .returns tx4) :
    ecotoneDescriptorTable env = .returns
      [deployL1BlockTransactionTx env, deployGasPriceOracleTx env, tx3, tx4,
        enableEcotoneTx env, deployEIP4788Tx env] := by
  simp only [ecotoneDescriptorTable, h3, h4]

/-- A run of the builder that ends without error has seen six successful
encodings and returns them in order. -/
theorem EcotoneNetworkUpgradeTransactions_ok_inv (env : Env) (tx3 tx4 : DepositTx)
    (h3 : updateL1BlockProxyTx env = .returns tx3)
    (h4 : updateGasPriceOracleProxyTx env = .returns tx4)
    (txns : List Bytes)
    (hrun : EcotoneNetworkUpgradeTransactions env = .returns (txns, none)) :
    ∃ b1 b2 b3 b4 b5 b6 : Bytes,
      env.MarshalBinary (deployL1BlockTransactionTx env) = .ok b1 ∧
      env.MarshalBinary (deployGasPriceOracleTx env) = .ok b2 ∧
      env.MarshalBinary tx3 = .ok b3 ∧
      env.MarshalBinary tx4 = .ok b4 ∧
      env.MarshalBinary (enableEcotoneTx env) = .ok b5 ∧
      env.MarshalBinary (deployEIP4788Tx env) = .ok b6 ∧
      txns = [b1, b2, b3, b4, b5, b6] := by
  rw [EcotoneNetworkUpgradeTransactions_unfold env tx3 tx4 h3 h4] at hrun
  rcases h1 : env.MarshalBinary (deployL1BlockTransactionTx env) with e1 | b1
  · rw [h1] at hrun; simp at hrun
  rcases h2 : env.MarshalBinary (deployGasPriceOracleTx env) with e2 | b2
  · rw [h1, h2] at hrun; simp at hrun
  rcases h3' : env.MarshalBinary tx3 with e3 | b3
  · rw [h1, h2, h3'] at hrun; simp at hrun
  rcases h4' : env.MarshalBinary tx4 with e4 | b4
  · rw [h1, h2, h3', h4'] at hrun; simp at hrun
  rcases h5 : env.MarshalBinary (enableEcotoneTx env) with e5 | b5
  · rw [h1, h2, h3', h4', h5] at hrun; simp at hrun
  rcases h6 : env.MarshalBinary (deployEIP4788Tx env) with e6 | b6
  · rw [h1, h2, h3', h4', h5, h6] at hrun; simp at hrun
  · rw [h1, h2, h3', h4', h5, h6] at hrun
    simp only [Outcome.returns.injEq, Prod.mk.injEq, and_true] at hrun
    exact ⟨b1, b2, b3, b4, b5, b6, rfl, rfl, rfl, rfl, rfl, rfl, hrun.symm⟩

/-- The position decoder inverts the position encoder wherever it succeeds. -/
theorem indexUnmarshal_indexMarshal (tx : DepositTx) (b : Bytes)
    (h : indexMarshal tx = .ok b) : indexUnmarshal b = .ok tx := by
  have hlen : sampleDescriptors.length = 6 := rfl
  unfold indexMarshal at h
  split at h
  · rename_i hlt
    injection h with h
    subst h
    have hval : (Fin.ofNat (sampleDescriptors.indexOf tx) : Byte).val
        = sampleDescriptors.indexOf tx := by
      show sampleDescriptors.indexOf tx % 256 = sampleDescriptors.indexOf tx
      exact Nat.mod_eq_of_lt (by omega)
    have hget : sampleDescriptors[sampleDescriptors.indexOf tx]? = some tx :=
      List.getElem?_indexOf (List.indexOf_lt_length.mp hlt)
    simp only [indexUnmarshal, hval, hget]
  · cases h

/-! ## The claims, continued -/

/-- C12: for every decoder that inverts the encoder wherever the encoder
succeeds, if the builder returns a list without error then its first entry
decodes to a contract creation (no recipient) sent by
0x4210000000000000000000000000000000000000 with gas 500000 and the L1Block
deployment bytecode as payload, and its fifth entry decodes to a transaction
to the GasPriceOracle proxy whose payload is the first four bytes of
Keccak-256 of "setEcotone()". -/
theorem first_and_fifth_entry_decode (env : Env) (decode : Bytes → Except Error DepositTx)
    (hinv : ∀ tx b, env.MarshalBinary tx = .ok b → decode b = .ok tx)
    (txns : List Bytes)
    (hrun : EcotoneNetworkUpgradeTransactions env = .returns (txns, none)) :
    ∃ (b1 b5 : Bytes) (t1 t5 : DepositTx),
      txns.length = 6 ∧ txns[0]? = some b1 ∧ txns[4]? = some b5 ∧
      decode b1 = .ok t1 ∧ decode b5 = .ok t5 ∧
      t1.To = none ∧
      t1.From = HexToAddress "0x4210000000000000000000000000000000000000" ∧
      t1.Gas = 500000 ∧
      t1.Data = l1BlockDeploymentBytecode env ∧
      t5.To = some env.GasPriceOracleAddr ∧
      t5.Data = (env.Keccak256 (stringBytes "setEcotone()")).bytes.take 4 := by
  obtain ⟨b1, b2, b3, b4, b5, b6, h1, -, -, -, h5, -, rfl⟩ :=
    EcotoneNetworkUpgradeTransactions_ok_inv env _ _ (updateL1BlockProxyTx_returns env)
      (updateGasPriceOracleProxyTx_returns env) txns hrun
  exact ⟨b1, b5, deployL1BlockTransactionTx env, enableEcotoneTx env, rfl, rfl, rfl,
    hinv _ _ h1, hinv _ _ h5, rfl, rfl, rfl, rfl, rfl, rfl⟩

set_option maxRecDepth 100000 in
/-- C12, exercised: with the position encoder and its decoder the builder
returns six one-byte entries, and the first and fifth decode as stated. -/
theorem first_and_fifth_entry_decode_witness :
    (∀ tx b, indexEnv.MarshalBinary tx = .ok b → indexUnmarshal b = .ok tx) ∧
    EcotoneNetworkUpgradeTransactions indexEnv
      = .returns ([[0], [1], [2], [3], [4], [5]], none) ∧
    ∃ (b1 b5 : Bytes) (t1 t5 : DepositTx),
      ([[0], [1], [2], [3], [4], [5]] : List Bytes).length = 6 ∧
      ([[0], [1], [2], [3], [4], [5]] : List Bytes)[0]? = some b1 ∧
      ([[0], [1], [2], [3], [4], [5]] : List Bytes)[4]? = some b5 ∧
      indexUnmarshal b1 = .ok t1 ∧ indexUnmarshal b5 = .ok t5 ∧
      t1.To = none ∧
      t1.From = HexToAddress "0x4210000000000000000000000000000000000000" ∧
      t1.Gas = 500000 ∧
      t1.Data = l1BlockDeploymentBytecode indexEnv ∧
      t5.To = some indexEnv.GasPriceOracleAddr ∧
      t5.Data = (indexEnv.Keccak256 (stringBytes "setEcotone()")).bytes.take 4 := by
  have hinv : ∀ tx b, indexEnv.MarshalBinary tx = .ok b → indexUnmarshal b = .ok tx :=
    indexUnmarshal_indexMarshal
  have hrun : EcotoneNetworkUpgradeTransactions indexEnv
      = .returns ([[0], [1], [2], [3], [4], [5]], none) := by decide
  exact ⟨hinv, hrun, first_and_fifth_entry_decode indexEnv indexUnmarshal hinv _ hrun⟩

/-- The error of the chain of six encodings is the error of the first failing
one. -/
theorem encoding_chain_first_error (r1 r2 r3 r4 r5 r6 : Except Error Bytes)
    (i : Nat) (e : Error) :
    [r1, r2, r3, r4, r5, r6][i]? = some (.error e) →
    (∀ j, j < i → ∃ b, [r1, r2, r3, r4, r5, r6][j]? = some (.ok b)) →
    (match r1 with
      | .error err => Outcome.returns (([] : List Bytes), some err)
      | .ok b1 =>
      match r2 with
      | .error err => .returns ([], some err)
      | .ok b2 =>
      match r3 with
      | .error err => .returns ([], some err)
      | .ok b3 =>
      match r4 with
      | .error err => .returns ([], some err)
      | .ok b4 =>
      match r5 with
      | .error err => .returns ([], some err)
      | .ok b5 =>
      match r6 with
      | .error err => .returns ([], some err)
      | .ok b6 => .returns ([b1, b2, b3, b4, b5, b6], none)) = .returns ([], some e) := by
  intro hi hlow
  match i, hi, hlow with
  | 0, hi, _ =>
    simp only [List.getElem?_cons_zero, Option.some.injEq] at hi
    subst hi
    rfl
  | 1, hi, hlow =>
    obtain ⟨b1, h1⟩ := hlow 0 (by omega)
    simp only [List.getElem?_cons_zero, List.getElem?_cons_succ, Option.some.injEq] at hi h1
    subst hi h1
    rfl
  | 2, hi, hlow =>
    obtain ⟨b1, h1⟩ := hlow 0 (by omega)
    obtain ⟨b2, h2⟩ := hlow 1 (by omega)
    simp only [List.getElem?_cons_zero, List.getElem?_cons_succ, Option.some.injEq] at hi h1 h2
    subst hi h1 h2
    rfl
  | 3, hi, hlow =>
    obtain ⟨b1, h1⟩ := hlow 0 (by omega)
    obtain ⟨b2, h2⟩ := hlow 1 (by omega)
    obtain ⟨b3, h3⟩ := hlow 2 (by omega)
    simp only [List.getElem?_cons_zero, List.getElem?_cons_succ, Option.some.injEq]
      at hi h1 h2 h3
    subst hi h1 h2 h3
    rfl
  | 4, hi, hlow =>
    obtain ⟨b1, h1⟩ := hlow 0 (by omega)
    obtain ⟨b2, h2⟩ := hlow 1 (by omega)
    obtain ⟨b3, h3⟩ := hlow 2 (by omega)
    obtain ⟨b4, h4⟩ := hlow 3 (by omega)
    simp only [List.getElem?_cons_zero, List.getElem?_cons_succ, Option.some.injEq]
      at hi h1 h2 h3 h4
    subst hi h1 h2 h3 h4
    rfl
  | 5, hi, hlow =>
    obtain ⟨b1, h1⟩ := hlow 0 (by omega)
    obtain ⟨b2, h2⟩ := hlow 1 (by omega)
    obtain ⟨b3, h3⟩ := hlow 2 (by omega)
    obtain ⟨b4, h4⟩ := hlow 3 (by omega)
    obtain ⟨b5, h5⟩ := hlow 4 (by omega)
    simp only [List.getElem?_cons_zero, List.getElem?_cons_succ, Option.some.injEq]
      at hi h1 h2 h3 h4 h5
    subst hi h1 h2 h3 h4 h5
    rfl
  | n + 6, hi, _ =>
    simp [List.getElem?_cons_succ] at hi

/-- C14: first encoding error wins.  If the i-th of the six encodings, in the
order of the builder, fails with error e and every encoding before it
succeeds, then the builder returns no list and exactly the error e, whatever
the encodings after the i-th would give. -/
theorem first_encoding_error_wins (env : Env) :
    ∃ tx3 tx4 : DepositTx,
      updateL1BlockProxyTx env = .returns tx3 ∧
      updateGasPriceOracleProxyTx env = .returns tx4 ∧
      ∀ (i : Nat) (e : Error),
        [env.MarshalBinary (deployL1BlockTransactionTx env),
         env.MarshalBinary (deployGasPriceOracleTx env),
         env.MarshalBinary tx3, env.MarshalBinary tx4,
         env.MarshalBinary (enableEcotoneTx env),
         env.MarshalBinary (deployEIP4788Tx env)][i]? = some (.error e) →
        (∀ j, j < i → ∃ b,
          [env.MarshalBinary (deployL1BlockTransactionTx env),
           env.MarshalBinary (deployGasPriceOracleTx env),
           env.MarshalBinary tx3, env.MarshalBinary tx4,
           env.MarshalBinary (enableEcotoneTx env),
           env.MarshalBinary (deployEIP4788Tx env)][j]? = some (.ok b)) →
        EcotoneNetworkUpgradeTransactions env = .returns ([], some e) := by
  refine ⟨_, _, updateL1BlockProxyTx_returns env, updateGasPriceOracleProxyTx_returns env, ?_⟩
  intro i e hi hlow
  rw [EcotoneNetworkUpgradeTransactions_unfold env _ _ (updateL1BlockProxyTx_returns env)
    (updateGasPriceOracleProxyTx_returns env)]
  exact encoding_chain_first_error _ _ _ _ _ _ i e hi hlow

/-- C14, exercised: the rejecting encoder fails on the third, fourth and fifth
descriptor with three different errors; the builder returns the error of the
third. -/
theorem first_encoding_error_wins_witness :
    ∃ tx3 tx4 : DepositTx,
      updateL1BlockProxyTx rejectingEnv = .returns tx3 ∧
      updateGasPriceOracleProxyTx rejectingEnv = .returns tx4 ∧
      rejectingEnv.MarshalBinary tx3 = .error "rejected source 30" ∧
      rejectingEnv.MarshalBinary tx4 = .error "rejected source 38" ∧
      rejectingEnv.MarshalBinary (enableEcotoneTx rejectingEnv) = .error "rejected source 37" ∧
      EcotoneNetworkUpgradeTransactions rejectingEnv
        = .returns ([], some "rejected source 30") := by
  obtain ⟨tx3, tx4, h3, h4, h⟩ := first_encoding_error_wins rejectingEnv
  have e3 := h3.symm.trans (updateL1BlockProxyTx_returns rejectingEnv)
  have e4 := h4.symm.trans (updateGasPriceOracleProxyTx_returns rejectingEnv)
  injection e3 with e3
  injection e4 with e4
  have r3 : rejectingEnv.MarshalBinary tx3 = .error "rejected source 30" := by
    rw [e3]; rfl
  have r4 : rejectingEnv.MarshalBinary tx4 = .error "rejected source 38" := by
    rw [e4]; rfl
  refine ⟨tx3, tx4, h3, h4, r3, r4, rfl, h 2 "rejected source 30" ?_ ?_⟩
  · simp only [List.getElem?_cons_succ, List.getElem?_cons_zero, r3]
  · intro j hj
    match j, hj with
    | 0, _ => exact ⟨_, rfl⟩
    | 1, _ => exact ⟨_, rfl⟩

/-- C15: the builder refines the declarative form.  The table of the six
descriptors is always built and has six records, and for every encoder the
result of the builder equals the result of mapping the encoder over the table
from left to right, aborting at the first failure. -/
theorem builder_refines_declarative (env : Env) :
    (∃ table : List DepositTx,
      ecotoneDescriptorTable env = .returns table ∧ table.length = 6) ∧
    EcotoneNetworkUpgradeTransactions env = declarativeUpgradeTransactions env := by
  have htable := ecotoneDescriptorTable_eq env _ _ (updateL1BlockProxyTx_returns env)
    (updateGasPriceOracleProxyTx_returns env)
  refine ⟨⟨_, htable, rfl⟩, ?_⟩
  rw [EcotoneNetworkUpgradeTransactions_unfold env _ _ (updateL1BlockProxyTx_returns env)
    (updateGasPriceOracleProxyTx_returns env)]
  simp only [declarativeUpgradeTransactions, htable, encodeAll]
  cases env.MarshalBinary (deployL1BlockTransactionTx env) <;> simp only []
  cases env.MarshalBinary (deployGasPriceOracleTx env) <;> simp only []
  generalize env.MarshalBinary _ = r3
  cases r3 <;> simp only []
  generalize env.MarshalBinary _ = r4
  cases r4 <;> simp only []
  cases env.MarshalBinary (enableEcotoneTx env) <;> simp only []
  cases env.MarshalBinary (deployEIP4788Tx env) <;> simp only []

/-- C16: the calldata helper is total and never panics.  On an in-memory buffer
neither the selector write nor the address write reports an error, so for every
address the helper returns a byte string and takes neither panic branch. -/
theorem upgradeToCalldata_never_panics (env : Env) (A : Address) :
    (∀ (w : Buffer) (sig : Bytes), (WriteSignature w sig).2 = none) ∧
    (∀ (w : Buffer) (a : Address), (WriteAddress w a).2 = none) ∧
    (WriteSignature (NewBuffer (4 + 20)) (UpgradeToFuncBytes4 env)).2 = none ∧
    (WriteAddress (WriteSignature (NewBuffer (4 + 20)) (UpgradeToFuncBytes4 env)).1 A).2
      = none ∧
    (∃ out : Bytes, upgradeToCalldata env A = .returns out) ∧
    ∀ msg : String, upgradeToCalldata env A ≠ .panics msg := by
  refine ⟨fun _ _ => rfl, fun _ _ => rfl, rfl, rfl, ⟨_, upgradeToCalldata_returns env A⟩, ?_⟩
  intro msg h
  rw [upgradeToCalldata_returns] at h
  cases h

/-- In a list of six descriptors of which only the first is sent by `A`, the
positions holding a descriptor sent by `A` are exactly position 0. -/
theorem first_is_only_sender (t1 t2 t3 t4 t5 t6 : DepositTx) (A : Address)
    (h1 : t1.From = A) (h2 : t2.From ≠ A) (h3 : t3.From ≠ A) (h4 : t4.From ≠ A)
    (h5 : t5.From ≠ A) (h6 : t6.From ≠ A) (i : Nat) :
    (∃ tx, [t1, t2, t3, t4, t5, t6][i]? = some tx ∧ tx.From = A) ↔ i = 0 := by
  constructor
  · rintro ⟨tx, hget, hfrom⟩
    match i, hget with
    | 0, _ => rfl
    | 1, hget =>
      simp only [List.getElem?_cons_succ, List.getElem?_cons_zero, Option.some.injEq] at hget
      subst hget
      exact absurd hfrom h2
    | 2, hget =>
      simp only [List.getElem?_cons_succ, List.getElem?_cons_zero, Option.some.injEq] at hget
      subst hget
      exact absurd hfrom h3
    | 3, hget =>
      simp only [List.getElem?_cons_succ, List.getElem?_cons_zero, Option.some.injEq] at hget
      subst hget
      exact absurd hfrom h4
    | 4, hget =>
      simp only [List.getElem?_cons_succ, List.getElem?_cons_zero, Option.some.injEq] at hget
      subst hget
      exact absurd hfrom h5
    | 5, hget =>
      simp only [List.getElem?_cons_succ, List.getElem?_cons_zero, Option.some.injEq] at hget
      subst hget
      exact absurd hfrom h6
    | n + 6, hget => simp [List.getElem?_cons_succ] at hget
  · rintro rfl
    exact ⟨t1, rfl, h1⟩

/-- In a list of six descriptors of which only the second is sent by `A`, the
positions holding a descriptor sent by `A` are exactly position 1. -/
theorem second_is_only_sender (t1 t2 t3 t4 t5 t6 : DepositTx) (A : Address)
    (h1 : t1.From ≠ A) (h2 : t2.From = A) (h3 : t3.From ≠ A) (h4 : t4.From ≠ A)
    (h5 : t5.From ≠ A) (h6 : t6.From ≠ A) (i : Nat) :
    (∃ tx, [t1, t2, t3, t4, t5, t6][i]? = some tx ∧ tx.From = A) ↔ i = 1 := by
  constructor
  · rintro ⟨tx, hget, hfrom⟩
    match i, hget with
    | 0, hget =>
      simp only [List.getElem?_cons_zero, Option.some.injEq] at hget
      subst hget
      exact absurd hfrom h1
    | 1, _ => rfl
    | 2, hget =>
      simp only [List.getElem?_cons_succ, List.getElem?_cons_zero, Option.some.injEq] at hget
      subst hget
      exact absurd hfrom h3
    | 3, hget =>
      simp only [List.getElem?_cons_succ, List.getElem?_cons_zero, Option.some.injEq] at hget
      subst hget
      exact absurd hfrom h4
    | 4, hget =>
      simp only [List.getElem?_cons_succ, List.getElem?_cons_zero, Option.some.injEq] at hget
      subst hget
      exact absurd hfrom h5
    | 5, hget =>
      simp only [List.getElem?_cons_succ, List.getElem?_cons_zero, Option.some.injEq] at hget
      subst hget
      exact absurd hfrom h6
    | n + 6, hget => simp [List.getElem?_cons_succ] at hget
  · rintro rfl
    exact ⟨t2, rfl, h2⟩

/-- C17: provided the depositer address (declared outside this file) is neither
of the two deployer addresses, the builder hands six descriptors t1..t6 to the
encoder, in this order, whatever the encoder is, such that: the only position
holding a descriptor sent by `L1BlockDeployerAddress` is the first and the only
one holding a descriptor sent by `GasPriceOracleDeployerAddress` is the second;
both of these descriptors are contract creations (no recipient); the two
deployer addresses and `EIP4788From` are pairwise different; the third and the
fourth descriptor are the calls to the two proxies whose payload is the calldata
for the address derived from the respective deployer at nonce 0; and every
position of a descriptor sent by a deployer is strictly smaller than every
position of a call whose payload is the calldata for the address derived from
that deployer at nonce 0. -/
theorem deployer_dependency_order (env : Env)
    (hL1 : env.L1InfoDepositerAddress ≠ L1BlockDeployerAddress)
    (hGPO : env.L1InfoDepositerAddress ≠ GasPriceOracleDeployerAddress) :
    ∃ t1 t2 t3 t4 t5 t6 : DepositTx,
      (∀ encode : DepositTx → Except Error Bytes,
        EcotoneNetworkUpgradeTransactions { env with MarshalBinary := encode } =
          match encodeAll encode [t1, t2, t3, t4, t5, t6] with
          | .error err => .returns ([], some err)
          | .ok txns => .returns (txns, none)) ∧
      (∀ i : Nat,
        (∃ tx, [t1, t2, t3, t4, t5, t6][i]? = some tx ∧ tx.From = L1BlockDeployerAddress)
          ↔ i = 0) ∧
      (∀ i : Nat,
        (∃ tx, [t1, t2, t3, t4, t5, t6][i]? = some tx ∧
          tx.From = GasPriceOracleDeployerAddress) ↔ i = 1) ∧
      (t1.From = L1BlockDeployerAddress ∧ t1.To = none) ∧
      (t2.From = GasPriceOracleDeployerAddress ∧ t2.To = none) ∧
      (L1BlockDeployerAddress ≠ GasPriceOracleDeployerAddress ∧
        L1BlockDeployerAddress ≠ EIP4788From ∧
        GasPriceOracleDeployerAddress ≠ EIP4788From) ∧
      (t3.To = some env.L1BlockAddr ∧
        upgradeToCalldata env (env.CreateAddress L1BlockDeployerAddress 0)
          = .returns t3.Data) ∧
      (t4.To = some env.GasPriceOracleAddr ∧
        upgradeToCalldata env (env.CreateAddress GasPriceOracleDeployerAddress 0)
          = .returns t4.Data) ∧
      (∀ (i j : Nat) (a b : DepositTx),
        [t1, t2, t3, t4, t5, t6][i]? = some a → a.From = L1BlockDeployerAddress →
        [t1, t2, t3, t4, t5, t6][j]? = some b → b.To ≠ none →
        upgradeToCalldata env (env.CreateAddress L1BlockDeployerAddress 0)
          = .returns b.Data →
        i < j) ∧
      (∀ (i j : Nat) (a b : DepositTx),
        [t1, t2, t3, t4, t5, t6][i]? = some a → a.From = GasPriceOracleDeployerAddress →
        [t1, t2, t3, t4, t5, t6][j]? = some b → b.To ≠ none →
        upgradeToCalldata env (env.CreateAddress GasPriceOracleDeployerAddress 0)
          = .returns b.Data →
        i < j) := by
  have h12 : L1BlockDeployerAddress ≠ GasPriceOracleDeployerAddress := by decide
  have h16 : L1BlockDeployerAddress ≠ EIP4788From := by decide
  have h26 : GasPriceOracleDeployerAddress ≠ EIP4788From := by decide
  have h01 : zeroAddress ≠ L1BlockDeployerAddress := by decide
  have h02 : zeroAddress ≠ GasPriceOracleDeployerAddress := by decide
  obtain ⟨tx3, h3, f3, to3, c3⟩ : ∃ tx3, updateL1BlockProxyTx env = .returns tx3 ∧
      tx3.From = zeroAddress ∧ tx3.To = some env.L1BlockAddr ∧
      upgradeToCalldata env (env.CreateAddress L1BlockDeployerAddress 0)
        = .returns tx3.Data :=
    ⟨_, updateL1BlockProxyTx_returns env, rfl, rfl, upgradeToCalldata_returns env _⟩
  obtain ⟨tx4, h4, f4, to4, c4⟩ : ∃ tx4, updateGasPriceOracleProxyTx env = .returns tx4 ∧
      tx4.From = zeroAddress ∧ tx4.To = some env.GasPriceOracleAddr ∧
      upgradeToCalldata env (env.CreateAddress GasPriceOracleDeployerAddress 0)
        = .returns tx4.Data :=
    ⟨_, updateGasPriceOracleProxyTx_returns env, rfl, rfl, upgradeToCalldata_returns env _⟩
  have hu1 := first_is_only_sender (deployL1BlockTransactionTx env) (deployGasPriceOracleTx env)
    tx3 tx4 (enableEcotoneTx env) (deployEIP4788Tx env) L1BlockDeployerAddress
    rfl h12.symm (f3 ▸ h01) (f4 ▸ h01) hL1 h16.symm
  have hu2 := second_is_only_sender (deployL1BlockTransactionTx env)
    (deployGasPriceOracleTx env) tx3 tx4 (enableEcotoneTx env) (deployEIP4788Tx env)
    GasPriceOracleDeployerAddress
    h12 rfl (f3 ▸ h02) (f4 ▸ h02) hGPO h26.symm
  refine ⟨deployL1BlockTransactionTx env, deployGasPriceOracleTx env, tx3, tx4,
    enableEcotoneTx env, deployEIP4788Tx env,
    EcotoneNetworkUpgradeTransactions_with_encoder env tx3 tx4 h3 h4,
    hu1, hu2, ⟨rfl, rfl⟩, ⟨rfl, rfl⟩, ⟨h12, h16, h26⟩,
    ⟨to3, c3⟩, ⟨to4, c4⟩, ?_, ?_⟩
  · intro i j a b hi ha hj hb _
    have hi0 : i = 0 := (hu1 i).mp ⟨a, hi, ha⟩
    subst hi0
    match j, hj with
    | 0, hj =>
      simp only [List.getElem?_cons_zero, Option.some.injEq] at hj
      subst hj
      exact absurd rfl hb
    | n + 1, _ => exact Nat.succ_pos n
  · intro i j a b hi ha hj hb _
    have hi1 : i = 1 := (hu2 i).mp ⟨a, hi, ha⟩
    subst hi1
    match j, hj with
    | 0, hj =>
      simp only [List.getElem?_cons_zero, Option.some.injEq] at hj
      subst hj
      exact absurd rfl hb
    | 1, hj =>
      simp only [List.getElem?_cons_succ, List.getElem?_cons_zero, Option.some.injEq] at hj
      subst hj
      exact absurd rfl hb
    | n + 2, _ => omega

/-- C17, exercised: the sample depositer address 0xDeaD...0001 differs from both
deployer addresses; under the sample collaborators the builder returns the
encodings of six descriptors of which the first is the creation sent by
`L1BlockDeployerAddress`, the second the creation sent by
`GasPriceOracleDeployerAddress`, and the third and fourth carry the calldata
for the addresses derived from these deployers. -/
theorem deployer_dependency_order_witness :
    sampleEnv.L1InfoDepositerAddress ≠ L1BlockDeployerAddress ∧
    sampleEnv.L1InfoDepositerAddress ≠ GasPriceOracleDeployerAddress ∧
    ∃ t1 t2 t3 t4 t5 t6 : DepositTx,
      EcotoneNetworkUpgradeTransactions sampleEnv = .returns
        ([sampleMarshal t1, sampleMarshal t2, sampleMarshal t3, sampleMarshal t4,
          sampleMarshal t5, sampleMarshal t6], none) ∧
      (t1.From = L1BlockDeployerAddress ∧ t1.To = none) ∧
      (t2.From = GasPriceOracleDeployerAddress ∧ t2.To = none) ∧
      upgradeToCalldata sampleEnv (sampleEnv.CreateAddress L1BlockDeployerAddress 0)
        = .returns t3.Data ∧
      upgradeToCalldata sampleEnv (sampleEnv.CreateAddress GasPriceOracleDeployerAddress 0)
        = .returns t4.Data := by
  have hL1 : sampleEnv.L1InfoDepositerAddress ≠ L1BlockDeployerAddress := by decide
  have hGPO : sampleEnv.L1InfoDepositerAddress ≠ GasPriceOracleDeployerAddress := by decide
  obtain ⟨t1, t2, t3, t4, t5, t6, htie, -, -, hc1, hc2, -, ⟨-, hc3⟩, ⟨-, hc4⟩, -, -⟩ :=
    deployer_dependency_order sampleEnv hL1 hGPO
  have hrun := htie (fun tx => .ok (sampleMarshal tx))
  rw [encodeAll_ok] at hrun
  exact ⟨hL1, hGPO, t1, t2, t3, t4, t5, t6, hrun, hc1, hc2, hc3, hc4⟩

set_option maxRecDepth 100000 in
/-- C18: the constant `eip4788CreationData` has exactly 106 bytes; its first 9
bytes are the init code 0x60618060095f395ff3, whose length operand (byte 1) is
0x61 = 97 and whose code-offset operand (byte 4) is 9; exactly 97 bytes follow
the first 9, so the declared runtime length is the length of the remainder;
and this constant is the payload of the sixth descriptor. -/
theorem eip4788CreationData_consistent :
    eip4788CreationData.length = 106 ∧
    eip4788CreationData.take 9 = [0x60, 0x61, 0x80, 0x60, 0x09, 0x5f, 0x39, 0x5f, 0xf3] ∧
    eip4788CreationData[1]? = some 0x61 ∧
    (0x61 : Byte).val = 97 ∧
    eip4788CreationData[4]? = some 9 ∧
    (eip4788CreationData.drop 9).length = 97 ∧
    (eip4788CreationData[1]?).map Fin.val = some (eip4788CreationData.drop 9).length ∧
    (eip4788CreationData[4]?).map Fin.val = some (eip4788CreationData.take 9).length ∧
    (eip4788CreationData.take 9).length + (eip4788CreationData.drop 9).length
      = eip4788CreationData.length ∧
    ∀ env : Env, (deployEIP4788Tx env).Data = eip4788CreationData := by
  refine ⟨by decide, by decide, by decide, by decide, by decide, by decide, by decide,
    by decide, by decide, ?_⟩
  intro env
  simp only [deployEIP4788Tx]

end Derive
